import Mathlib

/-!
Shallow embedding of the CppChan channel and selector library
(src/channel.h, src/channel.cc).

A channel's state is the data protected by its mutex.  Each public
operation is a function on that state.  Blocking operations are modelled
by outcome types with an explicit blocked case standing for a thread
suspended in a condition-variable wait; resuming such a thread is a fresh
application of the corresponding function to the state at wake-up time,
mirroring the predicate re-check performed by a guarded wait.
`waitingReceivers` is a C++ `size_t`; its increments and decrements wrap
modulo 2^64, which the embedding keeps explicit.
-/

namespace CppChan

/-- Modulus of the C++ `size_t` type (64-bit). -/
def W64 : Nat := 2 ^ 64

/-- Wrapping `size_t` increment. -/
def incW (n : Nat) : Nat := (n + 1) % W64

/-- Wrapping `size_t` decrement: decrementing 0 yields `2^64 - 1`. -/
def decW (n : Nat) : Nat := (n + (W64 - 1)) % W64

/-- The mutex-protected state of a `Channel<T>`: fields `queue`, `closed`,
`capacity` and `waitingReceivers` of src/channel.h.  The `selectors`
back-references are modelled on the selector side. -/
structure ChState (T : Type) where
  queue : List T
  closed : Bool
  capacity : Nat
  waitingReceivers : Nat
  deriving DecidableEq, Repr

variable {T : Type}

/-- `Channel<T>::try_send` (src/channel.cc lines 46-60): fails only when
the channel is closed or a positive-capacity buffer is full; otherwise the
value is enqueued at the back. -/
def try_send (s : ChState T) (v : T) : Bool × ChState T :=
  if s.closed ∨ (s.capacity ≠ 0 ∧ s.queue.length ≥ s.capacity) then
    (false, s)
  else
    (true, { s with queue := s.queue ++ [v] })

/-- `Channel<T>::try_receive` (src/channel.cc lines 92-102): pop the front
of the queue if there is one. -/
def try_receive (s : ChState T) : Option T × ChState T :=
  match s.queue with
  | [] => (none, s)
  | v :: rest => (some v, { s with queue := rest })

/-- `Channel<T>::close` (src/channel.cc lines 104-114): sets `closed`; the
condition-variable and selector notifications do not change the
mutex-protected data. -/
def close (s : ChState T) : ChState T := { s with closed := true }

/-- Outcome of running `Channel<T>::send` at a given state: `closedErr`
models the thrown runtime error (channel state unchanged), `ok` a
completed send, `blocked` a sender suspended in the send-side wait. -/
inductive SendResult (T : Type) where
  | closedErr (s : ChState T)
  | ok (s : ChState T)
  | blocked
  deriving DecidableEq, Repr

/-- `Channel<T>::send` (src/channel.cc lines 3-38) as one attempt at the
current state.  The closed check at entry and the re-check after waking
from the send-side wait are the same test, so applying this function at
the state where the sender runs covers both a fresh call and a wake-up.
In the capacity-0 branch a send that proceeds decrements
`waitingReceivers` (wrapping) and enqueues its value. -/
def send (s : ChState T) (v : T) : SendResult T :=
  if s.closed then .closedErr s
  else if s.capacity = 0 then
    if s.waitingReceivers > 0 then
      .ok { s with waitingReceivers := decW s.waitingReceivers,
                   queue := s.queue ++ [v] }
    else .blocked
  else
    if s.queue.length < s.capacity then
      .ok { s with queue := s.queue ++ [v] }
    else .blocked

/-- Outcome of running `Channel<T>::receive` at a given state: `done`
carries the returned optional value, `blocked` the state left behind by a
receiver suspended in the receive-side wait (in the capacity-0 branch that
state has `waitingReceivers` already incremented). -/
inductive RecvResult (T : Type) where
  | done (v : Option T) (s : ChState T)
  | blocked (s : ChState T)
  deriving DecidableEq, Repr

/-- Tail of `Channel<T>::receive` after its wait (src/channel.cc lines
76-83): return `none` when closed and empty, otherwise pop the front.  The
empty-queue branch of the match with `closed = false` is unreachable:
callers reach this point only when the wait predicate (queue non-empty or
closed) holds. -/
def finishRecv (s : ChState T) : RecvResult T :=
  if s.queue.isEmpty ∧ s.closed then .done none s
  else
    match s.queue with
    | [] => .done none s
    | v :: rest => .done (some v) { s with queue := rest }

/-- `Channel<T>::receive` (src/channel.cc lines 62-84).  In the capacity-0
branch the receiver first increments `waitingReceivers` (that increment is
visible to senders while the receiver is suspended); if the wait predicate
already holds it immediately decrements the counter again and inspects the
queue, otherwise it blocks in the incremented state. -/
def receive (s : ChState T) : RecvResult T :=
  if s.capacity = 0 then
    let s1 : ChState T := { s with waitingReceivers := incW s.waitingReceivers }
    if s1.queue.isEmpty ∧ !s1.closed then .blocked s1
    else finishRecv { s1 with waitingReceivers := decW s1.waitingReceivers }
  else
    if s.queue.isEmpty ∧ !s.closed then .blocked s
    else finishRecv s

/-- Wake-up of a receiver suspended in the receive-side wait: the wait
predicate is re-checked, and on success the capacity-0 branch decrements
`waitingReceivers` before inspecting the queue. -/
def resumeReceive (s : ChState T) : RecvResult T :=
  if s.queue.isEmpty ∧ !s.closed then .blocked s
  else if s.capacity = 0 then
    finishRecv { s with waitingReceivers := decW s.waitingReceivers }
  else finishRecv s

/-- Repeated blocking `receive` calls, collecting the returned optionals;
a call that would block ends the run (on a closed channel, the case the
theorems use, `receive` never blocks). -/
def recvN (s : ChState T) : Nat → List (Option T) × ChState T
  | 0 => ([], s)
  | n + 1 =>
    match receive s with
    | .done v s1 =>
      let p := recvN s1 n
      (v :: p.1, p.2)
    | .blocked s1 => ([], s1)

/-- Program counter of the single sender thread: `idle` between `send`
calls, `waiting` while suspended in the send-side wait on the head of its
pending list. -/
inductive SPC where
  | idle
  | waiting
  deriving DecidableEq, Repr

/-- Program counter of the single receiver thread. -/
inductive RPC where
  | idle
  | waiting
  deriving DecidableEq, Repr

/-- A system of one channel, one sender thread whose program is `pending`
(the values it still has to send, in program order) and one receiver
thread collecting the results of its `receive` calls in `received`.  No
thread calls `close`, matching executions made only of completed sends and
receives. -/
structure Sys (T : Type) where
  ch : ChState T
  pending : List T
  sPC : SPC
  rPC : RPC
  received : List (Option T)
  deriving DecidableEq, Repr

/-- Scheduler choice: which thread runs its next critical section. -/
inductive Label where
  | sstep
  | rstep
  deriving DecidableEq, Repr

/-- One scheduler step: run the chosen thread for one critical section
under the channel mutex.  `none` means that thread has nothing left to do
(or would observe a closed channel, unreachable here since nobody calls
`close`). -/
def step (σ : Sys T) : Label → Option (Sys T)
  | .sstep =>
    match σ.pending with
    | [] => none
    | v :: rest =>
      match send σ.ch v with
      | .ok s1 => some { σ with ch := s1, pending := rest, sPC := .idle }
      | .blocked => some { σ with sPC := .waiting }
      | .closedErr _ => none
  | .rstep =>
    match σ.rPC with
    | .idle =>
      match receive σ.ch with
      | .done v s1 =>
        some { σ with ch := s1, received := σ.received ++ [v], rPC := .idle }
      | .blocked s1 => some { σ with ch := s1, rPC := .waiting }
    | .waiting =>
      match resumeReceive σ.ch with
      | .done v s1 =>
        some { σ with ch := s1, received := σ.received ++ [v], rPC := .idle }
      | .blocked s1 => some { σ with ch := s1, rPC := .waiting }

/-- Run a finite schedule. -/
def run (σ : Sys T) : List Label → Option (Sys T)
  | [] => some σ
  | l :: ls =>
    match step σ l with
    | some σ1 => run σ1 ls
    | none => none

/-- Starting system: a fresh channel of capacity `cap` and a sender about
to send the values `vs`. -/
def init (cap : Nat) (vs : List T) : Sys T :=
  { ch := { queue := [], closed := false, capacity := cap, waitingReceivers := 0 },
    pending := vs, sPC := .idle, rPC := .idle, received := [] }

/-- State of one `Selector` together with the store of channels it
observes.  `intents` is the selector's vector of polling closures, each
entry holding the index of its channel in `chans`; the typed callbacks are
modelled by recording every delivered value in `fired`; `reg` records per
channel whether this selector is currently in that channel's `selectors`
list. -/
structure SelSys (T : Type) where
  chans : List (ChState T)
  reg : List Bool
  intents : List Nat
  fired : List T
  deriving DecidableEq, Repr

/-- The polling closure built by `Selector::add_receive` (src/channel.cc
lines 130-147) for the intent on channel `i`: if the channel is closed,
unregister the selector from it and report done (true); otherwise
`try_receive`, and if a value arrives run the callback on it and report
true; else report false. -/
def pollIntent (σ : SelSys T) (i : Nat) : Bool × SelSys T :=
  match σ.chans[i]? with
  | none => (false, σ)
  | some ch =>
    if ch.closed then (true, { σ with reg := σ.reg.set i false })
    else
      match try_receive ch with
      | (some v, ch1) =>
        (true, { σ with chans := σ.chans.set i ch1, fired := σ.fired ++ [v] })
      | (none, _) => (false, σ)

/-- The find-first scan over the polling closures performed by
`Selector::select` (the closures run for their side effects): the position
of the first intent whose poll reports true, with the selector state
threaded through the polls. -/
def findFire (σ : SelSys T) : List Nat → Option Nat × SelSys T
  | [] => (none, σ)
  | i :: rest =>
    match pollIntent σ i with
    | (true, σ1) => (some 0, σ1)
    | (false, σ1) =>
      let p := findFire σ1 rest
      (p.1.map (· + 1), p.2)

/-- Outcome of `Selector::select` (src/channel.cc lines 149-176): the
immediate paths return a boolean; `blocked` models the selector entering
its wait. -/
inductive SelectOutcome (T : Type) where
  | ret (b : Bool) (σ : SelSys T)
  | blocked (σ : SelSys T)
  deriving DecidableEq, Repr

/-- `Selector::select`, immediate part: scan all intents in registration
order; if some poll reports true, return true at once (the intent is not
erased on this path); if the intent list is empty return false; otherwise
enter the wait. -/
def select (σ : SelSys T) : SelectOutcome T :=
  match findFire σ σ.intents with
  | (some _, σ1) => .ret true σ1
  | (none, σ1) =>
    if σ1.intents.isEmpty then .ret false σ1 else .blocked σ1

/-- Claim C1 (refuted; code bug).  The claim: on a capacity-0 channel that
is open and has no waiting receiver, `try_send` returns false and enqueues
nothing.  The code's guard is only `closed or (capacity nonzero and
full)`, so on a fresh rendezvous channel with `waitingReceivers = 0` it
enqueues the value and returns true. -/
theorem c1_try_send_rendezvous_bug :
    try_send ({ queue := [], closed := false, capacity := 0,
                waitingReceivers := 0 } : ChState Nat) 7
      = (true, { queue := [7], closed := false, capacity := 0,
                 waitingReceivers := 0 }) := by
  decide

/-- Claim C6 (refuted; code bug).  The claim: a capacity-0 channel's queue
never holds more than one element after any sequence of public
operations.  Two consecutive `try_send` calls on a fresh open rendezvous
channel both succeed and leave a queue of length 2. -/
theorem c6_rendezvous_queue_bound_bug :
    (try_send ({ queue := [], closed := false, capacity := 0,
                 waitingReceivers := 0 } : ChState Nat) 1).1 = true
    ∧ (try_send (try_send ({ queue := [], closed := false, capacity := 0,
                             waitingReceivers := 0 } : ChState Nat) 1).2 2)
        = (true, { queue := [1, 2], closed := false, capacity := 0,
                   waitingReceivers := 0 }) := by
  exact ⟨by decide, by decide⟩

/-- Claim C5 (refuted; code bug).  The claim: every successful capacity-0
`send` is paired with exactly one `recv` returning the same value, and the
send does not return before its pairing recv has taken the value from the
queue.  First conjunct: after the schedule receiver-registers then
sender-runs, the first send has returned (`pending = [20]`) while its
value 10 is still in the queue and nothing has been received.  Second
conjunct: both the receiver and the sender decrement `waitingReceivers`
during one handoff, so the `size_t` counter wraps; after one complete
handoff `send 20` completes although both threads are idle and no receiver
is or will be waiting, leaving 20 in the queue unpaired forever and the
counter at `2^64 - 2`. -/
theorem c5_rendezvous_pairing_bug :
    run (init 0 [10, 20]) [Label.rstep, Label.sstep]
      = some { ch := { queue := [10], closed := false, capacity := 0,
                       waitingReceivers := 0 },
               pending := [20], sPC := .idle, rPC := .waiting,
               received := [] }
    ∧ run (init 0 [10, 20]) [Label.rstep, Label.sstep, Label.rstep, Label.sstep]
      = some { ch := { queue := [20], closed := false, capacity := 0,
                       waitingReceivers := W64 - 2 },
               pending := [], sPC := .idle, rPC := .idle,
               received := [some 10] } := by
  exact ⟨by decide, by decide⟩

/-- Claim C2 (refuted; code bug).  The claim: a selector whose registered
channels are all closed and drained returns false from `select` after
dropping all retired intents.  The poll closure reports true for a closed
channel, and the immediate scan of `select` then returns true without
removing the intent, so this call and every subsequent call return true;
`select` never returns false while such an intent remains. -/
theorem c2_select_all_closed_bug :
    select ({ chans := [{ queue := [], closed := true, capacity := 1,
                          waitingReceivers := 0 }],
              reg := [true], intents := [0], fired := [] } : SelSys Nat)
      = .ret true { chans := [{ queue := [], closed := true, capacity := 1,
                                waitingReceivers := 0 }],
                    reg := [false], intents := [0], fired := [] }
    ∧ select ({ chans := [{ queue := [], closed := true, capacity := 1,
                            waitingReceivers := 0 }],
                reg := [false], intents := [0], fired := [] } : SelSys Nat)
      = .ret true { chans := [{ queue := [], closed := true, capacity := 1,
                                waitingReceivers := 0 }],
                    reg := [false], intents := [0], fired := [] } := by
  exact ⟨by decide, by decide⟩

/-- Claim C3 (refuted; code bug).  The claim: an intent is dropped
(retired and unregistered) exactly when its channel is observed closed AND
empty during a poll.  Polling an intent whose channel is closed while a
value 7 is still queued already unregisters the selector from the channel
(the queued value is abandoned, `fired` stays empty), and the intent is
not removed from the intent list on this path. -/
theorem c3_intent_retire_bug :
    select ({ chans := [{ queue := [7], closed := true, capacity := 1,
                          waitingReceivers := 0 }],
              reg := [true], intents := [0], fired := [] } : SelSys Nat)
      = .ret true { chans := [{ queue := [7], closed := true, capacity := 1,
                                waitingReceivers := 0 }],
                    reg := [false], intents := [0], fired := [] } := by
  decide

/-- Claim C4 (refuted; code bug).  The claim: every `select` call that
returns true invokes exactly one callback with exactly one received
value.  On a selector holding one intent on a closed empty channel,
`select` returns true while invoking no callback at all: `fired` is still
empty in the returned state. -/
theorem c4_select_single_delivery_bug :
    select ({ chans := [{ queue := [], closed := true, capacity := 2,
                          waitingReceivers := 0 }],
              reg := [true], intents := [0], fired := [] } : SelSys Nat)
      = .ret true { chans := [{ queue := [], closed := true, capacity := 2,
                                waitingReceivers := 0 }],
                    reg := [false], intents := [0], fired := [] }
    ∧ (({ chans := [{ queue := [], closed := true, capacity := 2,
                      waitingReceivers := 0 }],
          reg := [false], intents := [0], fired := [] } : SelSys Nat)).fired
        = [] := by
  exact ⟨by decide, by decide⟩

/-- Claim C9 (confirmed).  A `send` that runs while the channel is closed,
whether the closed flag was set before the call or while the sender was
suspended in the send-side wait (both run the same closed check), fails
with the closed error and leaves the channel state unchanged: the result
carries back the state `s` itself, so no value is enqueued. -/
theorem c9_send_closed (T : Type) (s : ChState T) (v : T)
    (h : s.closed = true) :
    send s v = SendResult.closedErr s := by
  simp [send, h]

/-- Witness for C9 at a concrete closed channel. -/
theorem c9_send_closed_witness :
    send ({ queue := [1], closed := true, capacity := 1,
            waitingReceivers := 0 } : ChState Nat) 2
      = SendResult.closedErr { queue := [1], closed := true, capacity := 1,
                               waitingReceivers := 0 } :=
  c9_send_closed Nat _ 2 rfl

/-- Claim C8 (confirmed).  A `receive` that completes returns `none`
exactly when the channel was closed with an empty queue at the moment of
inspection, and in every other completing case it returns the front of the
queue. -/
theorem c8_recv_none_iff (T : Type) (s : ChState T) (v : Option T)
    (s1 : ChState T) (h : receive s = RecvResult.done v s1) :
    (v = none ↔ (s.closed = true ∧ s.queue = []))
    ∧ ∀ x, v = some x → s.queue.head? = some x := by
  rcases s with ⟨q, c, cap, wr⟩
  by_cases hcap : cap = 0 <;> rcases q with _ | ⟨x, xs⟩ <;> cases c <;>
    simp_all [receive, finishRecv]
  all_goals
    obtain ⟨hv, -⟩ := h
    subst hv
    simp

/-- Witness for C8 at a concrete open channel holding one value. -/
theorem c8_recv_none_iff_witness :
    ((some 5 : Option Nat) = none ↔
        (({ queue := [5], closed := false, capacity := 1,
            waitingReceivers := 0 } : ChState Nat).closed = true
          ∧ ({ queue := [5], closed := false, capacity := 1,
               waitingReceivers := 0 } : ChState Nat).queue = []))
    ∧ ∀ x, (some 5 : Option Nat) = some x →
        ({ queue := [5], closed := false, capacity := 1,
           waitingReceivers := 0 } : ChState Nat).queue.head? = some x :=
  c8_recv_none_iff Nat
    { queue := [5], closed := false, capacity := 1, waitingReceivers := 0 }
    (some 5)
    { queue := [], closed := false, capacity := 1, waitingReceivers := 0 }
    (by decide)

/-- Taking `n` elements of a list padded with at least `n` copies of `a`
does not depend on the amount of padding. -/
theorem take_append_replicate {α : Type} (a : α) :
    ∀ (L : List α) (n m : Nat), n ≤ m →
      (L ++ List.replicate m a).take n = (L ++ List.replicate n a).take n := by
  intro L
  induction L with
  | nil =>
    intro n m h
    simp [List.take_replicate, Nat.min_self, Nat.min_eq_left h]
  | cons b L ih =>
    intro n m h
    cases n with
    | zero => simp
    | succ k =>
      simp only [List.cons_append, List.take_succ_cons]
      rw [ih k m (Nat.le_trans (Nat.le_succ k) h), ih k (k + 1) (Nat.le_succ k)]

/-- On a closed channel `receive` always completes, returns the front of
the queue (or `none` when it is empty), and leaves a closed channel whose
queue is the tail. -/
theorem receive_closed_eq (s : ChState T) (h : s.closed = true) :
    ∃ s1, receive s = RecvResult.done s.queue.head? s1
      ∧ s1.closed = true ∧ s1.queue = s.queue.tail := by
  rcases s with ⟨q, c, cap, wr⟩
  subst h
  by_cases hcap : cap = 0
  · subst hcap
    refine ⟨{ queue := q.tail, closed := true, capacity := 0,
              waitingReceivers := decW (incW wr) }, ?_, rfl, rfl⟩
    rcases q with _ | ⟨x, xs⟩ <;> simp [receive, finishRecv]
  · refine ⟨{ queue := q.tail, closed := true, capacity := cap,
              waitingReceivers := wr }, ?_, rfl, rfl⟩
    rcases q with _ | ⟨x, xs⟩ <;> simp [receive, finishRecv, hcap]

/-- Repeated `receive` on a closed channel: the outputs are the queued
values in FIFO order, padded with `none` forever. -/
theorem recvN_closed (T : Type) (n : Nat) :
    ∀ s : ChState T, s.closed = true →
      (recvN s n).1 = ((s.queue.map some) ++ List.replicate n none).take n := by
  induction n with
  | zero => intro s h; simp [recvN]
  | succ n ih =>
    intro s h
    obtain ⟨s1, hr, hc1, hq1⟩ := receive_closed_eq s h
    rcases hq : s.queue with _ | ⟨x, xs⟩
    · rw [hq] at hr hq1
      simp only [recvN, hr, List.head?_nil]
      rw [ih s1 hc1, hq1]
      simp [List.take_replicate, Nat.min_self, List.replicate_succ]
    · rw [hq] at hr hq1
      simp only [recvN, hr, List.head?_cons]
      rw [ih s1 hc1, hq1]
      simp only [List.map_cons, List.cons_append, List.take_succ_cons,
        List.tail_cons]
      rw [take_append_replicate (none : Option T) (xs.map some) n (n + 1)
        (Nat.le_succ n)]

/-- Claim C7 (confirmed).  After `close`, successive `receive` calls
return exactly the values that were enqueued and not yet received, in FIFO
order, followed by `none` forever; and no operation ever appends to the
queue again: `send` fails with the closed error and `try_send` returns
false, both leaving the closed state untouched. -/
theorem c7_close_drain (T : Type) (s0 : ChState T) (n : Nat) (v : T) :
    (recvN (close s0) n).1
        = (((close s0).queue.map some) ++ List.replicate n none).take n
    ∧ send (close s0) v = SendResult.closedErr (close s0)
    ∧ try_send (close s0) v = (false, close s0) := by
  refine ⟨recvN_closed T n (close s0) rfl, ?_, ?_⟩
  · simp [send, close]
  · simp [try_send, close]

/-- A completed `send` on an open channel appends its value at the back of
the queue and changes neither the closed flag nor the capacity. -/
theorem send_ok_char (s : ChState T) (v : T) (s1 : ChState T)
    (hc : s.closed = false) (h : send s v = SendResult.ok s1) :
    s1.queue = s.queue ++ [v] ∧ s1.closed = false
      ∧ s1.capacity = s.capacity := by
  rw [send, hc] at h
  simp only [Bool.false_eq_true, if_false] at h
  split at h <;> split at h <;> cases h <;> exact ⟨rfl, rfl, rfl⟩

/-- A `receive` that completes on an open channel pops the front of a
non-empty queue and changes neither the closed flag nor the capacity. -/
theorem receive_done_char (s : ChState T) (v : Option T) (s1 : ChState T)
    (hc : s.closed = false) (h : receive s = RecvResult.done v s1) :
    ∃ x xs, s.queue = x :: xs ∧ v = some x ∧ s1.queue = xs
      ∧ s1.closed = false ∧ s1.capacity = s.capacity := by
  rcases s with ⟨q, c, cap, wr⟩
  simp only at hc
  subst hc
  rcases q with _ | ⟨x, xs⟩
  · exfalso
    by_cases hcap : cap = 0 <;> simp [receive, hcap] at h
  · have hr : receive (⟨x :: xs, false, cap, wr⟩ : ChState T)
        = RecvResult.done (some x)
            ⟨xs, false, cap, if cap = 0 then decW (incW wr) else wr⟩ := by
      by_cases hcap : cap = 0 <;> simp [receive, finishRecv, hcap]
    rw [hr] at h
    cases h
    exact ⟨x, xs, rfl, rfl, rfl, rfl, rfl⟩

/-- A `receive` that blocks changes nothing but `waitingReceivers`. -/
theorem receive_blocked_char (s s1 : ChState T)
    (h : receive s = RecvResult.blocked s1) :
    s1.queue = s.queue ∧ s1.closed = s.closed
      ∧ s1.capacity = s.capacity := by
  rcases s with ⟨q, c, cap, wr⟩
  by_cases hcap : cap = 0 <;> rcases q with _ | ⟨x, xs⟩ <;> cases c <;>
    simp_all [receive, finishRecv] <;> simp [← h]

/-- A resumed `receive` that completes on an open channel pops the front
of a non-empty queue and changes neither the closed flag nor the
capacity. -/
theorem resumeReceive_done_char (s : ChState T) (v : Option T)
    (s1 : ChState T) (hc : s.closed = false)
    (h : resumeReceive s = RecvResult.done v s1) :
    ∃ x xs, s.queue = x :: xs ∧ v = some x ∧ s1.queue = xs
      ∧ s1.closed = false ∧ s1.capacity = s.capacity := by
  rcases s with ⟨q, c, cap, wr⟩
  simp only at hc
  subst hc
  rcases q with _ | ⟨x, xs⟩
  · exfalso
    by_cases hcap : cap = 0 <;> simp [resumeReceive, hcap] at h
  · have hr : resumeReceive (⟨x :: xs, false, cap, wr⟩ : ChState T)
        = RecvResult.done (some x)
            ⟨xs, false, cap, if cap = 0 then decW wr else wr⟩ := by
      by_cases hcap : cap = 0 <;> simp [resumeReceive, finishRecv, hcap]
    rw [hr] at h
    cases h
    exact ⟨x, xs, rfl, rfl, rfl, rfl, rfl⟩

/-- A resumed `receive` that blocks again leaves the state unchanged. -/
theorem resumeReceive_blocked_char (s s1 : ChState T)
    (h : resumeReceive s = RecvResult.blocked s1) : s1 = s := by
  rcases s with ⟨q, c, cap, wr⟩
  by_cases hcap : cap = 0 <;> rcases q with _ | ⟨x, xs⟩ <;> cases c <;>
    simp_all [resumeReceive, finishRecv]

/-- Invariant tying any run of the one-sender/one-receiver system to the
sender's program `vs`: the channel stays open, the receiver has only ever
obtained real values, and those values followed by the queue contents and
the not-yet-sent values are exactly `vs`, in order. -/
def Inv (vs : List T) (σ : Sys T) : Prop :=
  σ.ch.closed = false
  ∧ ∃ rs : List T, σ.received = rs.map some
      ∧ vs = rs ++ σ.ch.queue ++ σ.pending

/-- The starting system satisfies the invariant. -/
theorem inv_init (cap : Nat) (vs : List T) : Inv vs (init cap vs) :=
  ⟨rfl, [], rfl, by simp [init]⟩

/-- Every scheduler step preserves the invariant. -/
theorem inv_step (vs : List T) (σ σ1 : Sys T) (l : Label)
    (h : step σ l = some σ1) (hI : Inv vs σ) : Inv vs σ1 := by
  obtain ⟨hc, rs, hrecv, hsplit⟩ := hI
  cases l with
  | sstep =>
    cases hp : σ.pending with
    | nil => simp [step, hp] at h
    | cons v rest =>
      cases hs : send σ.ch v with
      | closedErr s2 => simp [step, hp, hs] at h
      | ok s2 =>
        simp only [step, hp, hs, Option.some.injEq] at h
        subst h
        obtain ⟨hq2, hc2, -⟩ := send_ok_char σ.ch v s2 hc hs
        refine ⟨hc2, rs, hrecv, ?_⟩
        rw [hsplit, hp, hq2]
        simp
      | blocked =>
        simp only [step, hp, hs, Option.some.injEq] at h
        subst h
        exact ⟨hc, rs, hrecv, by rw [hsplit, hp]⟩
  | rstep =>
    cases hr : σ.rPC with
    | idle =>
      cases hs : receive σ.ch with
      | done v s2 =>
        simp only [step, hr, hs, Option.some.injEq] at h
        subst h
        obtain ⟨x, xs, hq, hv, hq2, hc2, -⟩ :=
          receive_done_char σ.ch v s2 hc hs
        refine ⟨hc2, rs ++ [x], ?_, ?_⟩
        · simp [hrecv, hv]
        · rw [hsplit, hq, hq2]
          simp
      | blocked s2 =>
        simp only [step, hr, hs, Option.some.injEq] at h
        subst h
        obtain ⟨hq2, hc2, -⟩ := receive_blocked_char σ.ch s2 hs
        exact ⟨by rw [hc2, hc], rs, hrecv, by rw [hsplit, hq2]⟩
    | waiting =>
      cases hs : resumeReceive σ.ch with
      | done v s2 =>
        simp only [step, hr, hs, Option.some.injEq] at h
        subst h
        obtain ⟨x, xs, hq, hv, hq2, hc2, -⟩ :=
          resumeReceive_done_char σ.ch v s2 hc hs
        refine ⟨hc2, rs ++ [x], ?_, ?_⟩
        · simp [hrecv, hv]
        · rw [hsplit, hq, hq2]
          simp
      | blocked s2 =>
        simp only [step, hr, hs, Option.some.injEq] at h
        subst h
        have hs2 : s2 = σ.ch := resumeReceive_blocked_char σ.ch s2 hs
        exact ⟨by rw [hs2, hc], rs, hrecv, by rw [hsplit, hs2]⟩

/-- Running any schedule preserves the invariant. -/
theorem inv_run (vs : List T) :
    ∀ (ls : List Label) (σ σ1 : Sys T),
      run σ ls = some σ1 → Inv vs σ → Inv vs σ1 := by
  intro ls
  induction ls with
  | nil =>
    intro σ σ1 h hI
    rw [run] at h
    cases h
    exact hI
  | cons l ls ih =>
    intro σ σ1 h hI
    rw [run] at h
    rcases hs : step σ l with _ | σ2 <;> rw [hs] at h
    · cases h
    · exact ih σ2 σ1 h (inv_step vs σ σ2 l hs hI)

/-- Claim C10 (confirmed).  For any capacity and any schedule of the
one-sender/one-receiver system in which every send has completed
(`pending` is empty) and every sent value has been received (the queue is
empty), the receiver obtained exactly the sent sequence, in order. -/
theorem c10_single_sender_fifo (T : Type) (cap : Nat) (vs : List T)
    (ls : List Label) (σ : Sys T)
    (h : run (init cap vs) ls = some σ)
    (hp : σ.pending = []) (hq : σ.ch.queue = []) :
    σ.received = vs.map some := by
  obtain ⟨-, rs, hrecv, hsplit⟩ :=
    inv_run vs ls (init cap vs) σ h (inv_init cap vs)
  rw [hp, hq] at hsplit
  simp only [List.append_nil] at hsplit
  rw [hrecv, hsplit]

/-- The final state of the concrete schedule used to witness C10. -/
def c10FinalState : Sys Nat :=
  { ch := { queue := [], closed := false, capacity := 1,
            waitingReceivers := 0 },
    pending := [], sPC := .idle, rPC := .idle,
    received := [some 1, some 2] }

/-- Witness for C10: a capacity-1 channel, the sends of 1 and 2 alternated
with the receives, ends with the receiver holding exactly the sequence
sent. -/
theorem c10_single_sender_fifo_witness :
    c10FinalState.received = ([1, 2] : List Nat).map some :=
  c10_single_sender_fifo Nat 1 [1, 2]
    [Label.sstep, Label.rstep, Label.sstep, Label.rstep]
    c10FinalState (by decide) (by decide) (by decide)

end CppChan
